import Mathlib

/-!
Shallow embedding of the FinishLine `src/main.py` program (GPX running-path viewer).

Python floats are modelled as ideal real numbers; Python strings as lists
of characters compared lexicographically by code point, exactly as CPython
compares `str` values; the `datetime` time-of-day as an hour/minute pair,
with `strftime "%H:%M"` as zero-padded two-digit rendering.  The external
collaborators (file IO + gpxpy parsing, matplotlib, Tk) are modelled at
their interfaces: the external part of the loader as an `Except`-valued input,
the renderer as the value `plot_path` would hand it, the GUI callback
`update_plot` as a transformer of the currently displayed view.
-/

/-- Time-of-day of a `datetime` value: the fields `strftime "%H:%M"` reads. -/
structure Timestamp where
  hour : Nat
  minute : Nat
deriving DecidableEq

/-- One timestamped GPS fix `(latitude, longitude, time)` as built by `parse_gpx`. -/
abbrev Sample : Type := ℝ × ℝ × Timestamp

/-- A `(latitude, longitude)` pair. -/
abbrev Coordinate : Type := ℝ × ℝ

/-- Python string comparison `a < b`: lexicographic by code point, a proper
prefix is smaller. -/
def str_lt : List Char → List Char → Bool
  | [], [] => false
  | [], _ :: _ => true
  | _ :: _, [] => false
  | a :: s, b :: t => if a < b then true else if b < a then false else str_lt s t

/-- Python string comparison `a <= b`: lexicographic by code point, a prefix
is less than or equal to any extension of it. -/
def str_le : List Char → List Char → Bool
  | [], _ => true
  | _ :: _, [] => false
  | a :: s, b :: t => if a < b then true else if b < a then false else str_le s t

/-- Rendering of `time.strftime("%H:%M")`: zero-padded two-digit hour and
minute separated by a colon (a `datetime` has `hour < 24`, `minute < 60`). -/
def time_hm (t : Timestamp) : List Char :=
  [Nat.digitChar (t.hour / 10), Nat.digitChar (t.hour % 10), ':',
   Nat.digitChar (t.minute / 10), Nat.digitChar (t.minute % 10)]

/-- Degree-to-radian conversion, `math.radians`. -/
noncomputable def radians (angle : ℝ) : ℝ := angle * Real.pi / 180

/-- Body of the loop in `rotate_coordinates` (source lines 42-55): translate
by the negated center, apply the rotation matrix, translate back. -/
def rotate_point (cos_theta sin_theta : ℝ) (center p : Coordinate) : Coordinate :=
  let lat_shifted := p.1 - center.1
  let lon_shifted := p.2 - center.2
  let lat_rotated := lat_shifted * cos_theta - lon_shifted * sin_theta
  let lon_rotated := lat_shifted * sin_theta + lon_shifted * cos_theta
  (lat_rotated + center.1, lon_rotated + center.2)

/-- Source `rotate_coordinates` (lines 23-57): precompute cosine and sine of
the angle in radians, then append the rotated image of each point to an
accumulator, in order. -/
noncomputable def rotate_coordinates (coordinates : List Coordinate) (angle : ℝ)
    (center : Coordinate) : List Coordinate :=
  let angle_rad := radians angle
  let cos_theta := Real.cos angle_rad
  let sin_theta := Real.sin angle_rad
  coordinates.foldl (fun rotated p => rotated ++ [rotate_point cos_theta sin_theta center p]) []

/-- Source `filter_coordinates_by_time` (lines 59-76): keep `(lat, lon)` of
every sample whose formatted time-of-day satisfies the chained Python
comparison `start_time <= time_str <= end_time`; pure string comparison,
no validation of the bounds, never raises. -/
def filter_coordinates_by_time (data : List Sample) (start_time end_time : List Char) :
    List Coordinate :=
  data.foldl
    (fun filtered q =>
      if str_le start_time (time_hm q.2.2) && str_le (time_hm q.2.2) end_time then
        filtered ++ [(q.1, q.2.1)]
      else filtered) []

/-- Maximum of a nonempty list of reals, Python `max(iterable)`; the `[]`
case is junk (Python raises there) and is never reached by `plot_path`. -/
noncomputable def listMax : List ℝ → ℝ
  | [] => 0
  | x :: xs => xs.foldl max x

/-- Minimum of a nonempty list of reals, Python `min(iterable)`; the `[]`
case is junk (Python raises there) and is never reached by `plot_path`. -/
noncomputable def listMin : List ℝ → ℝ
  | [] => 0
  | x :: xs => xs.foldl min x

/-- The axis limits handed to the renderer: `plt.xlim`/`plt.ylim` values. -/
structure ViewBounds where
  min_lat : ℝ
  max_lat : ℝ
  min_lon : ℝ
  max_lon : ℝ

/-- Center computation of `plot_path` (source lines 92-95): bounding-box
midpoint of the coordinate set. -/
noncomputable def path_center (coordinates : List Coordinate) : Coordinate :=
  ((listMax (coordinates.map Prod.fst) + listMin (coordinates.map Prod.fst)) / 2,
   (listMax (coordinates.map Prod.snd) + listMin (coordinates.map Prod.snd)) / 2)

/-- Bounds computation of `plot_path` (source lines 100-106): ranges of the
rotated coordinates scaled by `1 / zoom`, centered on the given center. -/
noncomputable def path_bounds (center : Coordinate) (rotated : List Coordinate)
    (zoom : ℝ) : ViewBounds :=
  let range_lat := (listMax (rotated.map Prod.fst) - listMin (rotated.map Prod.fst)) / zoom
  let range_lon := (listMax (rotated.map Prod.snd) - listMin (rotated.map Prod.snd)) / zoom
  ⟨center.1 - range_lat / 2, center.1 + range_lat / 2,
   center.2 - range_lon / 2, center.2 + range_lon / 2⟩

/-- Source `plot_path` (lines 78-117): on an empty coordinate list it prints
and returns without rendering (`none`); otherwise it renders the rotated
coordinates with the zoom-scaled bounds (`some`). -/
noncomputable def plot_path (coordinates : List Coordinate) (zoom rotation : ℝ) :
    Option (List Coordinate × ViewBounds) :=
  match coordinates with
  | [] => none
  | _ :: _ =>
    let center := path_center coordinates
    let rotated := rotate_coordinates coordinates rotation center
    some (rotated, path_bounds center rotated zoom)

/-- Source `update_plot` callback (lines 126-145), as a transformer of the
currently displayed view.  `filter_coordinates_by_time` is total (string
comparison cannot raise `ValueError`), so the `except ValueError` branch is
dead code and the filter result is always handed to `plot_path`; the
displayed view changes exactly when `plot_path` renders. -/
noncomputable def update_plot (data : List Sample) (zoom rotation : ℝ)
    (start_time end_time : List Char)
    (previous : Option (List Coordinate × ViewBounds)) :
    Option (List Coordinate × ViewBounds) :=
  let filtered := filter_coordinates_by_time data start_time end_time
  match plot_path filtered zoom rotation with
  | none => previous
  | some v => some v

/-- A GPX track point: position plus optional timestamp. -/
structure TrackPoint where
  latitude : ℝ
  longitude : ℝ
  time : Option Timestamp

/-- A GPX track segment. -/
structure TrackSegment where
  points : List TrackPoint

/-- A GPX track. -/
structure Track where
  segments : List TrackSegment

/-- A parsed GPX document. -/
structure GPX where
  tracks : List Track

/-- Failure kinds of the loading step: `open` raising on a missing path, or
`gpxpy.parse` rejecting malformed content. -/
inductive LoadError
  | fileNotFound
  | parseError
deriving DecidableEq

/-- Source `parse_gpx` (lines 8-21).  Opening and parsing the file are
external (`open` + `gpxpy.parse`) and modelled as an `Except`-valued input;
an exception there propagates before the accumulator `data` exists.  On a
parsed document the nested loops append `(latitude, longitude, time)` for
every point carrying a timestamp, tracks outer, segments middle, points
inner. -/
def parse_gpx (input : Except LoadError GPX) : Except LoadError (List Sample) :=
  match input with
  | .error e => .error e
  | .ok gpx =>
    .ok (gpx.tracks.foldl
      (fun data track =>
        track.segments.foldl
          (fun d seg =>
            seg.points.foldl
              (fun d2 point =>
                match point.time with
                | some t => d2 ++ [(point.latitude, point.longitude, t)]
                | none => d2) d) data) [])

/-- Modelled from the spec, Step B of the View Transform: Center is the
bounding-box midpoint `((max_lat+min_lat)/2, (max_lon+min_lon)/2)` of the
filtered coordinate set. -/
noncomputable def spec_center (coords : List Coordinate) : Coordinate :=
  ((listMax (coords.map Prod.fst) + listMin (coords.map Prod.fst)) / 2,
   (listMax (coords.map Prod.snd) + listMin (coords.map Prod.snd)) / 2)

/-- Modelled from the spec, Step C of the View Transform: translate by the
negated Center, apply the counter-clockwise rotation matrix for the angle
converted to radians, translate back. -/
noncomputable def spec_rotate_point (rotation_degrees : ℝ) (c p : Coordinate) : Coordinate :=
  let dlat := p.1 - c.1
  let dlon := p.2 - c.2
  let theta := rotation_degrees * Real.pi / 180
  (dlat * Real.cos theta - dlon * Real.sin theta + c.1,
   dlat * Real.sin theta + dlon * Real.cos theta + c.2)

/-! ### Helper lemmas -/

/-- Appending one image per element to an accumulator is `map`. -/
theorem foldl_append_singleton {α β : Type _} (f : α → β) :
    ∀ (l : List α) (a : List β),
      l.foldl (fun acc x => acc ++ [f x]) a = a ++ l.map f := by
  intro l
  induction l with
  | nil => intro a; simp
  | cons x xs ih => intro a; simp [List.foldl_cons, ih, List.append_assoc]

/-- The rotation loop is a pointwise map of the loop body over the input. -/
theorem rotate_coordinates_eq_map (coordinates : List Coordinate) (angle : ℝ)
    (center : Coordinate) :
    rotate_coordinates coordinates angle center
      = coordinates.map
          (rotate_point (Real.cos (radians angle)) (Real.sin (radians angle)) center) := by
  simpa [rotate_coordinates] using
    foldl_append_singleton
      (rotate_point (Real.cos (radians angle)) (Real.sin (radians angle)) center)
      coordinates []

/-- Reflexivity of Python string `<=`. -/
theorem str_le_refl : ∀ s : List Char, str_le s s = true := by
  intro s
  induction s with
  | nil => rfl
  | cons a s ih => simp [str_le, ih]

/-- Transitivity of Python string `<=`. -/
theorem str_le_trans :
    ∀ {s t u : List Char}, str_le s t = true → str_le t u = true → str_le s u = true := by
  intro s
  induction s with
  | nil => intro t u _ _; rfl
  | cons a s ih =>
    intro t u hst htu
    cases t with
    | nil => simp [str_le] at hst
    | cons b t =>
      cases u with
      | nil => simp [str_le] at htu
      | cons c u =>
        simp only [str_le] at hst htu ⊢
        rcases lt_trichotomy a b with hab | hab | hab
        · rcases lt_trichotomy b c with hbc | hbc | hbc
          · simp [lt_trans hab hbc]
          · subst hbc; simp [hab]
          · simp [asymm hbc, hbc] at htu
        · subst hab
          simp [lt_irrefl] at hst
          rcases lt_trichotomy a c with hac | hac | hac
          · simp [hac]
          · subst hac
            simp [lt_irrefl] at htu ⊢
            exact ih hst htu
          · simp [hac, asymm hac] at htu
        · simp [hab, asymm hab] at hst

/-- Python string `<` and converse `<=` cannot both hold. -/
theorem str_lt_le_false :
    ∀ {s t : List Char}, str_lt s t = true → str_le t s = true → False := by
  intro s
  induction s with
  | nil =>
    intro t hlt hle
    cases t with
    | nil => simp [str_lt] at hlt
    | cons b t => simp [str_le] at hle
  | cons a s ih =>
    intro t hlt hle
    cases t with
    | nil => simp [str_lt] at hlt
    | cons b t =>
      simp only [str_lt] at hlt
      simp only [str_le] at hle
      rcases lt_trichotomy a b with hab | hab | hab
      · simp [hab, asymm hab] at hle
      · subst hab
        simp [lt_irrefl] at hlt hle
        exact ih hlt hle
      · simp [hab, asymm hab] at hlt

/-- The time-filter loop, from any accumulator, appends exactly the
projections of the samples passing the chained comparison. -/
theorem filter_foldl_eq (s e : List Char) :
    ∀ (data : List Sample) (a : List Coordinate),
      data.foldl
          (fun filtered q =>
            if str_le s (time_hm q.2.2) && str_le (time_hm q.2.2) e then
              filtered ++ [(q.1, q.2.1)]
            else filtered) a
        = a ++ (data.filter
            (fun q => str_le s (time_hm q.2.2) && str_le (time_hm q.2.2) e)).map
              (fun q => (q.1, q.2.1)) := by
  intro data
  induction data with
  | nil => intro a; simp
  | cons q rest ih =>
    intro a
    rw [List.foldl_cons, ih]
    by_cases h1 : str_le s (time_hm q.2.2) = true
    · by_cases h2 : str_le (time_hm q.2.2) e = true
      · simp [h1, h2, List.filter_cons, List.append_assoc]
      · simp [h1, h2, List.filter_cons]
    · simp [h1, List.filter_cons]

/-- The filter is the projection of the samples passing the comparison. -/
theorem filter_coordinates_by_time_eq (data : List Sample) (s e : List Char) :
    filter_coordinates_by_time data s e
      = (data.filter
          (fun q => str_le s (time_hm q.2.2) && str_le (time_hm q.2.2) e)).map
            (fun q => (q.1, q.2.1)) := by
  simpa [filter_coordinates_by_time] using filter_foldl_eq s e data []

/-- The innermost `parse_gpx` loop over points, from any accumulator. -/
theorem points_foldl_eq :
    ∀ (pts : List TrackPoint) (a : List Sample),
      pts.foldl
          (fun d2 point =>
            match point.time with
            | some t => d2 ++ [(point.latitude, point.longitude, t)]
            | none => d2) a
        = a ++ pts.filterMap
            (fun point => point.time.map (fun t => (point.latitude, point.longitude, t))) := by
  intro pts
  induction pts with
  | nil => intro a; simp
  | cons p rest ih =>
    intro a
    cases hp : p.time with
    | none => simp [List.foldl_cons, hp, ih, List.filterMap_cons]
    | some t => simp [List.foldl_cons, hp, ih, List.filterMap_cons, List.append_assoc]

/-- The middle `parse_gpx` loop over segments, from any accumulator. -/
theorem segments_foldl_eq :
    ∀ (segs : List TrackSegment) (a : List Sample),
      segs.foldl
          (fun d seg =>
            seg.points.foldl
              (fun d2 point =>
                match point.time with
                | some t => d2 ++ [(point.latitude, point.longitude, t)]
                | none => d2) d) a
        = a ++ segs.flatMap
            (fun seg => seg.points.filterMap
              (fun point => point.time.map (fun t => (point.latitude, point.longitude, t)))) := by
  intro segs
  induction segs with
  | nil => intro a; simp
  | cons sg rest ih =>
    intro a
    rw [List.foldl_cons, ih, points_foldl_eq]
    simp [List.flatMap_cons, List.append_assoc]

/-- The outer `parse_gpx` loop over tracks, from any accumulator. -/
theorem tracks_foldl_eq :
    ∀ (trs : List Track) (a : List Sample),
      trs.foldl
          (fun data track =>
            track.segments.foldl
              (fun d seg =>
                seg.points.foldl
                  (fun d2 point =>
                    match point.time with
                    | some t => d2 ++ [(point.latitude, point.longitude, t)]
                    | none => d2) d) data) a
        = a ++ trs.flatMap
            (fun track => track.segments.flatMap
              (fun seg => seg.points.filterMap
                (fun point => point.time.map
                  (fun t => (point.latitude, point.longitude, t))))) := by
  intro trs
  induction trs with
  | nil => intro a; simp
  | cons tr rest ih =>
    intro a
    rw [List.foldl_cons, ih, segments_foldl_eq]
    simp [List.flatMap_cons, List.append_assoc]

/-- Single-point paths render unchanged: the point is its own bounding-box
midpoint, rotation fixes it, and both ranges collapse to zero. -/
theorem plot_path_single (x y zoom rotation : ℝ) :
    plot_path [(x, y)] zoom rotation = some ([(x, y)], ⟨x, x, y, y⟩) := by
  have hc : path_center [(x, y)] = (x, y) := by
    simp only [path_center, List.map_cons, List.map_nil, listMax, listMin, List.foldl_nil]
    have h1 : (x + x) / 2 = x := by ring
    have h2 : (y + y) / 2 = y := by ring
    rw [h1, h2]
  have hr : rotate_coordinates [(x, y)] rotation (x, y) = [(x, y)] := by
    rw [rotate_coordinates_eq_map]
    simp [rotate_point]
  have hb : path_bounds (x, y) [(x, y)] zoom = ⟨x, x, y, y⟩ := by
    simp [path_bounds, listMax, listMin]
  simp only [plot_path, hc, hr, hb]

/-- C6: for every well-formed track file, the loader returns the
concatenation of all points in file order — tracks outer, segments middle,
points inner — and a point lacking a timestamp is silently omitted from the
result rather than being an error. -/
theorem C6_loader_flattens_in_file_order (gpx : GPX) :
    parse_gpx (.ok gpx)
      = .ok (gpx.tracks.flatMap
          (fun track => track.segments.flatMap
            (fun seg => seg.points.filterMap
              (fun point => point.time.map
                (fun t => (point.latitude, point.longitude, t)))))) := by
  have h := tracks_foldl_eq gpx.tracks []
  rw [List.nil_append] at h
  simp only [parse_gpx, h]

/-- C7: when the external open/parse step fails (missing path or malformed
content), `parse_gpx` propagates exactly that FileNotFound/ParseError kind
and yields no sample sequence at all, not even a truncated one. -/
theorem C7_load_failure_is_atomic (e : LoadError) :
    parse_gpx (.error e) = .error e
      ∧ ∀ samples : List Sample, parse_gpx (.error e) ≠ .ok samples := by
  constructor
  · rfl
  · intro samples hcontra
    simp [parse_gpx] at hcontra

/-- C7 witness: the failure propagation evaluated at the FileNotFound kind. -/
theorem C7_load_failure_is_atomic_witness :
    parse_gpx (.error .fileNotFound) = .error .fileNotFound
      ∧ parse_gpx (.error .fileNotFound) ≠ .ok [] :=
  ⟨(C7_load_failure_is_atomic .fileNotFound).1,
   (C7_load_failure_is_atomic .fileNotFound).2 []⟩

/-- C10: `rotate_coordinates` is a pointwise map — the output has the same
length in the same order, the i-th output depending only on the i-th input
together with the angle and center — and, being a total function, it never
fails on any finite input list. -/
theorem C10_rotate_is_pointwise_map (coordinates : List Coordinate) (angle : ℝ)
    (center : Coordinate) :
    rotate_coordinates coordinates angle center
        = coordinates.map
            (rotate_point (Real.cos (radians angle)) (Real.sin (radians angle)) center)
      ∧ (rotate_coordinates coordinates angle center).length = coordinates.length := by
  refine ⟨rotate_coordinates_eq_map coordinates angle center, ?_⟩
  rw [rotate_coordinates_eq_map coordinates angle center]
  exact List.length_map coordinates _

/-- C8: rotating a coordinate set by an angle and then rotating the result
by the negated angle about the same center reproduces the original set
exactly in ideal real arithmetic. -/
theorem C8_rotation_roundtrip (coordinates : List Coordinate) (angle : ℝ)
    (center : Coordinate) :
    rotate_coordinates (rotate_coordinates coordinates angle center) (-angle) center
      = coordinates := by
  rw [rotate_coordinates_eq_map, rotate_coordinates_eq_map, List.map_map]
  have hrad : radians (-angle) = -(radians angle) := by unfold radians; ring
  rw [hrad, Real.cos_neg, Real.sin_neg]
  have hpt : ∀ p : Coordinate,
      rotate_point (Real.cos (radians angle)) (-Real.sin (radians angle)) center
          (rotate_point (Real.cos (radians angle)) (Real.sin (radians angle)) center p)
        = p := by
    intro p
    have hcs := Real.sin_sq_add_cos_sq (radians angle)
    obtain ⟨x, y⟩ := p
    simp only [rotate_point, Prod.mk.injEq]
    constructor
    · linear_combination (x - center.1) * hcs
    · linear_combination (y - center.2) * hcs
  have hfun :
      (rotate_point (Real.cos (radians angle)) (-Real.sin (radians angle)) center ∘
          rotate_point (Real.cos (radians angle)) (Real.sin (radians angle)) center)
        = id := by
    funext p
    exact hpt p
  rw [hfun, List.map_id]

/-- C9: for every rotation angle and zoom, the view transform applied to a
single-point coordinate set leaves the point unchanged: the point is its own
Center (min equals max on both axes) and the Center is the fixed point of
the rotation. -/
theorem C9_single_point_is_fixed (p : Coordinate) (zoom rotation : ℝ) :
    plot_path [p] zoom rotation = some ([p], ⟨p.1, p.1, p.2, p.2⟩) := by
  obtain ⟨x, y⟩ := p
  exact plot_path_single x y zoom rotation

/-- C3: the time filter retains a sample exactly when its formatted
time-of-day lies lexicographically between the two bound strings inclusive
(stated as the filter being the projection of exactly those samples, in
order); a sample timestamped exactly at either bound is retained whenever
the window is nondegenerate; and whenever start exceeds end lexicographically
the result is empty. -/
theorem C3_time_filter_characterization (data : List Sample) (s e : List Char) :
    filter_coordinates_by_time data s e
        = (data.filter
            (fun q => str_le s (time_hm q.2.2) && str_le (time_hm q.2.2) e)).map
              (fun q => (q.1, q.2.1))
      ∧ (∀ q ∈ data, str_le s e = true → (time_hm q.2.2 = s ∨ time_hm q.2.2 = e) →
          (q.1, q.2.1) ∈ filter_coordinates_by_time data s e)
      ∧ (str_lt e s = true → filter_coordinates_by_time data s e = []) := by
  refine ⟨filter_coordinates_by_time_eq data s e, ?_, ?_⟩
  · intro q hq hse hbound
    rw [filter_coordinates_by_time_eq]
    refine List.mem_map.mpr ⟨q, List.mem_filter.mpr ⟨hq, ?_⟩, rfl⟩
    rcases hbound with h | h
    · rw [h]
      simp [str_le_refl s, hse]
    · rw [h]
      simp [str_le_refl e, hse]
  · intro hlt
    rw [filter_coordinates_by_time_eq]
    have hnil : data.filter
        (fun q => str_le s (time_hm q.2.2) && str_le (time_hm q.2.2) e) = [] := by
      refine List.filter_eq_nil_iff.mpr ?_
      intro q hq
      simp only [Bool.and_eq_true, not_and]
      intro h1 h2
      exact str_lt_le_false hlt (str_le_trans h1 h2)
    rw [hnil, List.map_nil]

/-- C3 witness: a sample at exactly the start bound of the window 12:00 to
18:00 is retained. -/
theorem C3_time_filter_characterization_witness :
    ((0:ℝ), (0:ℝ)) ∈ filter_coordinates_by_time [((0:ℝ), (0:ℝ), ⟨12, 0⟩)]
        ['1', '2', ':', '0', '0'] ['1', '8', ':', '0', '0'] :=
  (C3_time_filter_characterization [((0:ℝ), (0:ℝ), ⟨12, 0⟩)]
      ['1', '2', ':', '0', '0'] ['1', '8', ':', '0', '0']).2.1
    ((0:ℝ), (0:ℝ), ⟨12, 0⟩) (by simp) (by decide) (Or.inl (by decide))

/-- C5: whenever the time-filtered coordinate set is empty, `plot_path`
reports instead of rendering (no center, rotation or bounds are computed)
and the previously displayed view is left untouched by the callback. -/
theorem C5_empty_view_keeps_previous (data : List Sample) (s e : List Char)
    (zoom rotation : ℝ) (previous : Option (List Coordinate × ViewBounds))
    (h : filter_coordinates_by_time data s e = []) :
    plot_path (filter_coordinates_by_time data s e) zoom rotation = none
      ∧ update_plot data zoom rotation s e previous = previous := by
  have hnil : plot_path [] zoom rotation = none := rfl
  constructor
  · rw [h, hnil]
  · simp only [update_plot, h, hnil]

/-- C5 witness: a window crossing midnight (18:00 to 06:00) empties the
filter, and the callback leaves the displayed view exactly as it was. -/
theorem C5_empty_view_keeps_previous_witness :
    plot_path
        (filter_coordinates_by_time [((0:ℝ), 0, ⟨12, 0⟩)]
          ['1', '8', ':', '0', '0'] ['0', '6', ':', '0', '0']) 1 0 = none
      ∧ update_plot [((0:ℝ), 0, ⟨12, 0⟩)] 1 0
          ['1', '8', ':', '0', '0'] ['0', '6', ':', '0', '0']
          (some ([((5:ℝ), 5)], ⟨1, 2, 3, 4⟩))
        = some ([((5:ℝ), 5)], ⟨1, 2, 3, 4⟩) :=
  C5_empty_view_keeps_previous [((0:ℝ), 0, ⟨12, 0⟩)]
    ['1', '8', ':', '0', '0'] ['0', '6', ':', '0', '0'] 1 0
    (some ([((5:ℝ), 5)], ⟨1, 2, 3, 4⟩)) rfl

/-- C1: evaluation at the failing input.  With the malformed end-time string
"banana" the transform raises no error at all — the sample at 12:00 passes
the lexicographic comparison (digits sort before lowercase letters) — and
the callback renders a fresh view over the previously displayed one instead
of failing with an InvalidTimeFormat kind and retaining it.  The
`except ValueError` handler in `update_plot` is dead code: string comparison
cannot raise. -/
theorem C1_malformed_time_renders_anyway :
    update_plot [((0:ℝ), 0, ⟨12, 0⟩)] 1 0
        ['0', '0', ':', '0', '0'] ['b', 'a', 'n', 'a', 'n', 'a'] none
      = some ([((0:ℝ), 0)], ⟨0, 0, 0, 0⟩) := by
  have hf : filter_coordinates_by_time [((0:ℝ), 0, ⟨12, 0⟩)]
      ['0', '0', ':', '0', '0'] ['b', 'a', 'n', 'a', 'n', 'a'] = [((0:ℝ), 0)] := rfl
  simp only [update_plot, hf, plot_path_single]

/-- C4: for every non-empty filtered coordinate set the Center is the
bounding-box midpoint of that set, and each rendered coordinate is the input
coordinate translated by the negated Center, rotated counter-clockwise by
the angle converted to radians, and translated back — the pipeline of the
code refines the Step B and Step C formulas of the spec exactly. -/
theorem C4_center_and_rotation_formulas (coords : List Coordinate) (zoom rotation : ℝ)
    (h : coords ≠ []) :
    ∃ b, plot_path coords zoom rotation
        = some (coords.map (spec_rotate_point rotation (spec_center coords)), b) := by
  cases coords with
  | nil => exact absurd rfl h
  | cons c0 rest =>
    have hmap : rotate_coordinates (c0 :: rest) rotation (path_center (c0 :: rest))
        = (c0 :: rest).map (spec_rotate_point rotation (spec_center (c0 :: rest))) := by
      rw [rotate_coordinates_eq_map]
      rfl
    refine ⟨path_bounds (path_center (c0 :: rest))
        ((c0 :: rest).map (spec_rotate_point rotation (spec_center (c0 :: rest)))) zoom, ?_⟩
    have hstep : plot_path (c0 :: rest) zoom rotation
        = some (rotate_coordinates (c0 :: rest) rotation (path_center (c0 :: rest)),
            path_bounds (path_center (c0 :: rest))
              (rotate_coordinates (c0 :: rest) rotation (path_center (c0 :: rest))) zoom) := rfl
    rw [hstep, hmap]

/-- C4 witness: the refinement applied to a concrete two-point set. -/
theorem C4_center_and_rotation_formulas_witness :
    ∃ b, plot_path [((0:ℝ), 0), ((1:ℝ), 1)] 1 0
        = some ([((0:ℝ), 0), ((1:ℝ), 1)].map
            (spec_rotate_point 0 (spec_center [((0:ℝ), 0), ((1:ℝ), 1)])), b) :=
  C4_center_and_rotation_formulas [((0:ℝ), 0), ((1:ℝ), 1)] 1 0 (by simp)

/-- C2 counterexample: at zoom 1 and rotation 45 degrees on the three-point
set (0,0), (4,0), (0,2) the rendered bounds do NOT equal the min/max of the
rotated set: the bounds are centered on the prefiltered Center (2,1), but
the rotated longitudes [1 - 3√2/2, 1 + √2/2, 1 - √2/2] are not symmetric
about it, so the computed min_lon 1 - √2 differs from the true minimum
1 - 3√2/2. -/
theorem C2_counterexample :
    ∃ out, plot_path [((0:ℝ), 0), ((4:ℝ), 0), ((0:ℝ), 2)] 1 45 = some out
      ∧ out.2.min_lon ≠ listMin (out.1.map Prod.snd) := by
  have hpos : 0 < Real.sqrt 2 := Real.sqrt_pos.mpr (by norm_num)
  have hC : Real.cos (radians 45) = Real.sqrt 2 / 2 := by
    rw [show radians 45 = Real.pi / 4 by unfold radians; ring]
    exact Real.cos_pi_div_four
  have hS : Real.sin (radians 45) = Real.sqrt 2 / 2 := by
    rw [show radians 45 = Real.pi / 4 by unfold radians; ring]
    exact Real.sin_pi_div_four
  have hcen : path_center [((0:ℝ), 0), ((4:ℝ), 0), ((0:ℝ), 2)] = (2, 1) := by
    simp only [path_center, List.map_cons, List.map_nil, listMax, listMin,
      List.foldl_cons, List.foldl_nil]
    norm_num [Prod.mk.injEq]
  have hrot : rotate_coordinates [((0:ℝ), 0), ((4:ℝ), 0), ((0:ℝ), 2)] 45 (2, 1)
      = [(2 - Real.sqrt 2 / 2, 1 - 3 * Real.sqrt 2 / 2),
         (2 + 3 * Real.sqrt 2 / 2, 1 + Real.sqrt 2 / 2),
         (2 - 3 * Real.sqrt 2 / 2, 1 - Real.sqrt 2 / 2)] := by
    rw [rotate_coordinates_eq_map, hC, hS]
    simp only [List.map_cons, List.map_nil, rotate_point, List.cons.injEq,
      Prod.mk.injEq, and_true]
    norm_num
    refine ⟨⟨by ring, by ring⟩, ⟨by ring, by ring⟩, by ring, by ring⟩
  refine ⟨(rotate_coordinates [((0:ℝ), 0), ((4:ℝ), 0), ((0:ℝ), 2)] 45
        (path_center [((0:ℝ), 0), ((4:ℝ), 0), ((0:ℝ), 2)]),
      path_bounds (path_center [((0:ℝ), 0), ((4:ℝ), 0), ((0:ℝ), 2)])
        (rotate_coordinates [((0:ℝ), 0), ((4:ℝ), 0), ((0:ℝ), 2)] 45
          (path_center [((0:ℝ), 0), ((4:ℝ), 0), ((0:ℝ), 2)])) 1), rfl, ?_⟩
  rw [hcen, hrot]
  simp only [path_bounds, List.map_cons, List.map_nil, listMax, listMin,
    List.foldl_cons, List.foldl_nil]
  have hmax : max (max (1 - 3 * Real.sqrt 2 / 2) (1 + Real.sqrt 2 / 2))
      (1 - Real.sqrt 2 / 2) = 1 + Real.sqrt 2 / 2 := by
    rw [max_eq_right (by linarith : (1:ℝ) - 3 * Real.sqrt 2 / 2 ≤ 1 + Real.sqrt 2 / 2),
        max_eq_left (by linarith : (1:ℝ) - Real.sqrt 2 / 2 ≤ 1 + Real.sqrt 2 / 2)]
  have hmin : min (min (1 - 3 * Real.sqrt 2 / 2) (1 + Real.sqrt 2 / 2))
      (1 - Real.sqrt 2 / 2) = 1 - 3 * Real.sqrt 2 / 2 := by
    rw [min_eq_left (by linarith : (1:ℝ) - 3 * Real.sqrt 2 / 2 ≤ 1 + Real.sqrt 2 / 2),
        min_eq_left (by linarith : (1:ℝ) - 3 * Real.sqrt 2 / 2 ≤ 1 - Real.sqrt 2 / 2)]
  rw [hmax, hmin]
  intro hEq
  have hzero : Real.sqrt 2 = 0 := by linarith
  exact absurd hzero (ne_of_gt hpos)

/-- C2 amended: for every non-empty coordinate set and rotation angle, at
zoom 1 the rendered bounds span exactly the latitude and
longitude ranges of the rotated set but are centered on the prefiltered
Center; they therefore
equal the min/max of the rotated coordinate set exactly when that Center is
the bounding-box midpoint of the rotated set on each axis (as at rotation
0, ±90 or 180 degrees, or for symmetric sets). -/
theorem C2_zoom_one_bounds (coords : List Coordinate) (rotation : ℝ)
    (h : coords ≠ [])
    (hlat : (path_center coords).1
        = (listMax ((rotate_coordinates coords rotation (path_center coords)).map Prod.fst)
            + listMin ((rotate_coordinates coords rotation (path_center coords)).map Prod.fst))
          / 2)
    (hlon : (path_center coords).2
        = (listMax ((rotate_coordinates coords rotation (path_center coords)).map Prod.snd)
            + listMin ((rotate_coordinates coords rotation (path_center coords)).map Prod.snd))
          / 2) :
    plot_path coords 1 rotation
      = some (rotate_coordinates coords rotation (path_center coords),
          ⟨listMin ((rotate_coordinates coords rotation (path_center coords)).map Prod.fst),
           listMax ((rotate_coordinates coords rotation (path_center coords)).map Prod.fst),
           listMin ((rotate_coordinates coords rotation (path_center coords)).map Prod.snd),
           listMax ((rotate_coordinates coords rotation (path_center coords)).map Prod.snd)⟩) := by
  cases coords with
  | nil => exact absurd rfl h
  | cons c0 rest =>
    have hstep : plot_path (c0 :: rest) 1 rotation
        = some (rotate_coordinates (c0 :: rest) rotation (path_center (c0 :: rest)),
            path_bounds (path_center (c0 :: rest))
              (rotate_coordinates (c0 :: rest) rotation (path_center (c0 :: rest))) 1) := rfl
    rw [hstep]
    have hb : path_bounds (path_center (c0 :: rest))
        (rotate_coordinates (c0 :: rest) rotation (path_center (c0 :: rest))) 1
      = ⟨listMin ((rotate_coordinates (c0 :: rest) rotation (path_center (c0 :: rest))).map
            Prod.fst),
         listMax ((rotate_coordinates (c0 :: rest) rotation (path_center (c0 :: rest))).map
            Prod.fst),
         listMin ((rotate_coordinates (c0 :: rest) rotation (path_center (c0 :: rest))).map
            Prod.snd),
         listMax ((rotate_coordinates (c0 :: rest) rotation (path_center (c0 :: rest))).map
            Prod.snd)⟩ := by
      simp only [path_bounds, ViewBounds.mk.injEq]
      refine ⟨?_, ?_, ?_, ?_⟩
      · rw [hlat]; ring
      · rw [hlat]; ring
      · rw [hlon]; ring
      · rw [hlon]; ring
    rw [hb]

/-- C2 witness: at rotation 0 the Center coincides with the bounding-box
midpoint of the rotated set, and the zoom-1 bounds equal its min/max. -/
theorem C2_zoom_one_bounds_witness :
    plot_path [((0:ℝ), 0), ((1:ℝ), 1)] 1 0
      = some ([((0:ℝ), 0), ((1:ℝ), 1)], ⟨0, 1, 0, 1⟩) := by
  have hrot0 : rotate_coordinates [((0:ℝ), 0), ((1:ℝ), 1)] 0
      (path_center [((0:ℝ), 0), ((1:ℝ), 1)]) = [((0:ℝ), 0), ((1:ℝ), 1)] := by
    rw [rotate_coordinates_eq_map,
        show radians 0 = 0 by unfold radians; ring,
        Real.cos_zero, Real.sin_zero]
    simp [rotate_point]
  have hlat : (path_center [((0:ℝ), 0), ((1:ℝ), 1)]).1
      = (listMax ((rotate_coordinates [((0:ℝ), 0), ((1:ℝ), 1)] 0
            (path_center [((0:ℝ), 0), ((1:ℝ), 1)])).map Prod.fst)
          + listMin ((rotate_coordinates [((0:ℝ), 0), ((1:ℝ), 1)] 0
            (path_center [((0:ℝ), 0), ((1:ℝ), 1)])).map Prod.fst)) / 2 := by
    rw [hrot0]; rfl
  have hlon : (path_center [((0:ℝ), 0), ((1:ℝ), 1)]).2
      = (listMax ((rotate_coordinates [((0:ℝ), 0), ((1:ℝ), 1)] 0
            (path_center [((0:ℝ), 0), ((1:ℝ), 1)])).map Prod.snd)
          + listMin ((rotate_coordinates [((0:ℝ), 0), ((1:ℝ), 1)] 0
            (path_center [((0:ℝ), 0), ((1:ℝ), 1)])).map Prod.snd)) / 2 := by
    rw [hrot0]; rfl
  have h := C2_zoom_one_bounds [((0:ℝ), 0), ((1:ℝ), 1)] 0 (by simp) hlat hlon
  rw [hrot0] at h
  rw [h]
  norm_num [listMax, listMin, Prod.mk.injEq, ViewBounds.mk.injEq]
